import Mathlib

/-!
Verification development for the DubBotBase repository: a shallow embedding of
the event translator (translator.js), the room state tracker (state_tracker.js),
the bot facade's outbound actions (dubtrack.js) and the command dispatch loop
(index.js), together with theorems settling the frozen claims about them.

Conventions of the embedding:
* JS strings are Lean `String`; character-level work goes through `.data`.
* JS numbers are `Int` (timestamps, votes, levels use `Nat` where the source
  only ever holds non-negative integers).
* A JS property that a producer never sets but a consumer reads is modelled as
  an `Option` field defaulting to `none` (reading an absent property yields
  `undefined` in JS).
* A handler that dereferences `undefined` (a thrown TypeError) is modelled by
  returning `none`.
-/

/-- Internal chat-message classification, from the ChatType enum in types.js.
The JS values are the strings "command", "emote" and "message". -/
inductive ChatType where
  | command
  | emote
  | message
  deriving DecidableEq

/-- A user role, from the UserRole enum in types.js: an object with a `name`
string and a numeric `level` used for permission ordering. -/
structure Role where
  name : String
  level : Nat
  deriving DecidableEq

/-- UserRole.NONE from types.js. -/
def roleNone : Role := ⟨"none", 0⟩

/-- UserRole.DJ from types.js. -/
def roleDj : Role := ⟨"dj", 1⟩

/-- UserRole.RESIDENT_DJ from types.js. -/
def roleResidentDj : Role := ⟨"residentDj", 2⟩

/-- UserRole.VIP from types.js. -/
def roleVip : Role := ⟨"vip", 2⟩

/-- UserRole.MOD from types.js. -/
def roleMod : Role := ⟨"mod", 3⟩

/-- UserRole.COOWNER from types.js. -/
def roleCoowner : Role := ⟨"co-owner", 4⟩

/-- UserRole.OWNER from types.js. -/
def roleOwner : Role := ⟨"owner", 5⟩

/-- Internal media model produced by translateMediaObject. -/
structure Media where
  contentID : String
  durationInSeconds : Int
  fullTitle : String
  deriving DecidableEq

/-- Internal user model produced by translateUserObject. `role` is an `Option`
because translateRole can yield `undefined`: the translator's switch returns
`Types.UserRole.MANAGER`, an entry that does not exist in the UserRole enum of
the types module shipped next to the translator. -/
structure User where
  dubs : Int
  joinDate : Int
  numberOfSongsPlayed : Int
  role : Option Role
  userID : String
  username : String
  deriving DecidableEq

/-- The per-play vote record created by the state tracker handlers: three lists
of user IDs, in the field order of the JS object literal. -/
structure Votes where
  grabs : List String
  mehs : List String
  woots : List String
  deriving DecidableEq

/-- An entry of the tracked play history, as built by onAdvance and
populateUsers in state_tracker.js. -/
structure Play where
  media : Media
  startDate : Int
  user : User
  votes : Votes
  deriving DecidableEq

/-- A stored chat-history entry, as built by onChat in state_tracker.js.
`isDeleted`, `deletedByUserID` and `deletionTime` are absent (undefined) until
onChatDelete sets them: absence is modelled by the defaults. `wasUserMuted`
mirrors `event.isMuted`, a property the translator never sets. -/
structure ChatMessage where
  chatID : String
  message : String
  timestamp : Int
  type : ChatType
  userID : String
  username : String
  wasUserMuted : Option Bool
  isDeleted : Bool := false
  deletedByUserID : Option String := none
  deletionTime : Option Int := none
  deriving DecidableEq

/-- A wait-list entry from translateRoomPlaylistQueueUpdateEvent: the
translators return null for missing media or user, hence the options. -/
structure QueueEntry where
  media : Option Media
  user : Option User
  deriving DecidableEq

/-- The tracked room snapshot, as initialized by StateTracker.init.
`waitList` is not one of the properties created by init: the property first
appears when onRoomPlaylistQueueUpdate assigns it, hence the `Option`. -/
structure RoomState where
  chatHistory : List ChatMessage
  mediaQueue : List QueueEntry
  playHistory : List Play
  usersInRoom : List User
  waitList : Option (List QueueEntry) := none
  deriving DecidableEq

/-- The room snapshot created at the start of StateTracker.init: four empty
collections and no waitList property yet. -/
def initialRoomState : RoomState :=
  { chatHistory := [], mediaQueue := [], playHistory := [], usersInRoom := [] }

/-- The configuration options of config/defaults.json that the embedded code
reads. -/
structure BotConfig where
  areCommandsCaseSensitive : Bool
  numberOfChatEventsToStore : Nat
  numberOfPlayedSongsToStore : Nat
  deriving DecidableEq

/-! ## Event translator (translator.js) -/

/-- Raw DubAPI media object, with the fields translateMediaObject reads. -/
structure RawMedia where
  fkid : String
  songLength : Int
  name : String
  deriving DecidableEq

/-- Raw DubAPI user object, with the fields translateUserObject reads plus the
`grab` and `vote` flags that populateUsers inspects when seeding votes. -/
structure RawDubUser where
  dubs : Int
  created : Int
  playedCount : Int
  role : String
  id : String
  username : String
  grab : Bool
  vote : Int
  deriving DecidableEq

/-- translateDateTimestamp from translator.js: a falsy timestamp (0 in this
integer model) is replaced by the current time. -/
def translateDateTimestamp (now : Int) (timestamp : Int) : Int :=
  if timestamp = 0 then now else timestamp

/-- translateRole from translator.js: the switch over dubtrack role-ID strings.
The "5615fd84e596150061000003" case returns `Types.UserRole.MANAGER`, which is
not defined in the UserRole enum of the adjacent types module; reading it
yields undefined, modelled as `none`. Every other recognized ID and the
default arm yield a defined role. -/
def translateRole (role : String) : Option Role :=
  if role = "5615fa9ae596154a5c000000" then some roleCoowner
  else if role = "5615fd84e596150061000003" then none
  else if role = "52d1ce33c38a06510c000001" then some roleMod
  else if role = "5615fe1ee596154fc2000001" then some roleVip
  else if role = "5615feb8e596154fc2000002" then some roleResidentDj
  else if role = "564435423f6ba174d2000001" then some roleDj
  else some roleNone

/-- translateMediaObject from translator.js. Integer division stands in for the
JS division by 1000. -/
def translateMediaObject (media : Option RawMedia) : Option Media :=
  match media with
  | none => none
  | some m => some { contentID := m.fkid, durationInSeconds := m.songLength / 1000, fullTitle := m.name }

/-- The non-null branch of translateUserObject from translator.js. -/
def translateUser (now : Int) (u : RawDubUser) : User :=
  { dubs := u.dubs
    joinDate := translateDateTimestamp now u.created
    numberOfSongsPlayed := u.playedCount
    role := translateRole u.role
    userID := u.id
    username := u.username }

/-- translateUserObject from translator.js: null in, null out; otherwise the
field renames of `translateUser`. -/
def translateUserObject (now : Int) (u : Option RawDubUser) : Option User :=
  match u with
  | none => none
  | some u => some (translateUser now u)

/-- The `event.user` payload of a raw chat event. -/
structure RawChatUser where
  id : String
  username : String
  role : String
  deriving DecidableEq

/-- The `event.raw.user` payload of a raw chat event, with the underscore and
roleid field names translateChatEvent falls back to. -/
structure RawInnerUser where
  _id : String
  username : String
  roleid : String
  deriving DecidableEq

/-- A raw chat-message event as read by translateChatEvent and
translateChatType: `type` is the vendor variant tag, `user` may be absent. -/
structure RawChatEvent where
  id : String
  message : String
  type : String
  user : Option RawChatUser
  raw_user : RawInnerUser
  deriving DecidableEq

/-- Containment test over character lists: does `pat` occur as a contiguous
substring? This embeds the unanchored JS regex test `/\/me /.test(message)`,
which matches the pattern anywhere in the string (the comment above it in
translator.js says "starts with", but the regex has no anchor). -/
def hasSubstring (pat : List Char) : List Char → Bool
  | [] => pat.isEmpty
  | c :: rest => pat.isPrefixOf (c :: rest) || hasSubstring pat rest

/-- translateChatType from translator.js. The JS function mutates
`event.message` in the emote branch (`substring(4)` drops the first four
characters); the returned pair carries the classification together with the
value `event.message` holds after the call. The two trailing branches (the
recognized "chat-message" tag and the logged fallback) both yield MESSAGE. -/
def translateChatType (e : RawChatEvent) : ChatType × String :=
  if e.message.data.head? = some '!' then
    (ChatType.command, e.message)
  else if e.message.length > 4 && hasSubstring "/me ".data e.message.data then
    (ChatType.emote, String.mk (e.message.data.drop 4))
  else if e.type = "chat-message" then
    (ChatType.message, e.message)
  else
    (ChatType.message, e.message)

/-- Whitespace tokenization over character lists: the embedded form of
JS `message.trim().split(/\s+/)`. Splitting on runs of whitespace after a trim
yields exactly the non-empty tokens. (JS edge: an all-whitespace input gives
`[""]` where this gives `[]`; the command computed from either is `""`.) -/
def wordsAux : List Char → List Char → List (List Char)
  | acc, [] => if acc.isEmpty then [] else [acc.reverse]
  | acc, c :: rest =>
      if c.isWhitespace then
        if acc.isEmpty then wordsAux [] rest else acc.reverse :: wordsAux [] rest
      else
        wordsAux (c :: acc) rest

/-- The token list of `message.trim().split(/\s+/)` as Lean strings. -/
def jsTrimSplitWhitespace (s : String) : List String :=
  (wordsAux [] s.data).map String.mk

/-- JS `String.prototype.replace("!", "")`: remove the first occurrence of the
bang character, leaving everything else alone. -/
def jsReplaceFirstBang : List Char → List Char
  | [] => []
  | c :: cs => if c = '!' then cs else c :: jsReplaceFirstBang cs

/-- The translated chat event produced by translateChatEvent. `command`,
`args` and `isMuted` default to `none`: the first two are set only for
COMMAND-typed messages; `isMuted` is never set by the translator even though
onChat reads it. -/
structure TranslatedChatEvent where
  chatID : String
  message : String
  type : ChatType
  userID : String
  username : String
  userRole : Option Role
  command : Option String := none
  args : Option (List String) := none
  isMuted : Option Bool := none
  deriving DecidableEq

/-- translateChatEvent from translator.js. The JS object literal evaluates its
fields in source order, so `message` captures `event.message` BEFORE the
`type` field's call to translateChatType mutates it; the translated object
therefore keeps the original text even when the emote branch strips four
characters from `event.message`. The command branch reads `event.message`
after the call (the command branch never mutated it, so the two coincide
there) and splits it into the command word (bang removed) and the arguments. -/
def translateChatEvent (e : RawChatEvent) : TranslatedChatEvent :=
  let message := e.message
  let typeAndMutated := translateChatType e
  let base : TranslatedChatEvent :=
    { chatID := e.id
      message := message
      type := typeAndMutated.1
      userID := match e.user with | some u => u.id | none => e.raw_user._id
      username := match e.user with | some u => u.username | none => e.raw_user.username
      userRole := translateRole (match e.user with | some u => u.role | none => e.raw_user.roleid) }
  if typeAndMutated.1 = ChatType.command then
    let words := jsTrimSplitWhitespace typeAndMutated.2
    { base with
        command := some (String.mk (jsReplaceFirstBang (words.headD "").data))
        args := some words.tail }
  else
    base

/-- The `event.user` payload of a raw chat-delete event. -/
structure RawModUser where
  id : String
  username : String
  deriving DecidableEq

/-- A raw delete-chat-message event as read by translateChatDeleteEvent. -/
structure RawChatDeleteEvent where
  id : String
  user : RawModUser
  deriving DecidableEq

/-- The translated chat-delete event. translateChatDeleteEvent sets `chatID`,
`deleterID` and `deleterUsername`; `modUserID` is NOT among them — it models
the property onChatDelete reads, which is absent (undefined) on this object,
hence the `none` default. -/
structure TranslatedChatDeleteEvent where
  chatID : String
  deleterID : String
  deleterUsername : String
  modUserID : Option String := none
  deriving DecidableEq

/-- translateChatDeleteEvent from translator.js: the message ID and the
deleting moderator's ID and username, under the names the translator uses. -/
def translateChatDeleteEvent (e : RawChatDeleteEvent) : TranslatedChatDeleteEvent :=
  { chatID := e.id, deleterID := e.user.id, deleterUsername := e.user.username }

/-- The translated vote event carries the voting user and a signed vote:
translateVoteEvent maps "updub" to 1 and "downdub" to -1 and drops any other
dubtype. -/
structure TranslatedVoteEvent where
  user : Option User
  vote : Int
  deriving DecidableEq

/-- A raw room_playlist-dub event as read by translateVoteEvent. -/
structure RawVoteEvent where
  dubtype : String
  user : Option RawDubUser
  deriving DecidableEq

/-- translateVoteEvent from translator.js: only the "updub" and "downdub"
dubtypes produce an event (vote 1 and -1 respectively); anything else is
logged and dropped (null). -/
def translateVoteEvent (now : Int) (e : RawVoteEvent) : Option TranslatedVoteEvent :=
  if e.dubtype ≠ "updub" ∧ e.dubtype ≠ "downdub" then none
  else some { user := translateUserObject now e.user
              vote := if e.dubtype = "updub" then 1 else -1 }

/-! ## Room state tracker (state_tracker.js) -/

/-- The view of a translated chat event that onVote reads: `event.userID` and
`event.vote`. (The translated vote event produced by translateVoteEvent
carries a `user` object instead of a flat `userID`; the claims about onVote
concern the handler itself, so it is embedded over the fields it accesses.) -/
structure VoteEvent where
  userID : String
  vote : Int
  deriving DecidableEq

/-- The translated grab event: translateGrabEvent wraps the raw payload as the
`userID` field that onGrab reads. -/
structure GrabEvent where
  userID : String
  deriving DecidableEq

/-- The view of an advance event that onAdvance reads: `event.media`,
`event.startDate` and `event.incomingDJ` (all present on a translated advance
event, which is dropped by the translator when user or media is missing). -/
structure AdvanceEvent where
  incomingDJ : User
  media : Media
  startDate : Int
  deriving DecidableEq

/-- The fresh play object built at the top of onAdvance: the event's media, DJ
and start date with empty vote lists. -/
def advancePlay (e : AdvanceEvent) : Play :=
  { media := e.media
    startDate := e.startDate
    user := e.incomingDJ
    votes := { grabs := [], mehs := [], woots := [] } }

/-- onAdvance from state_tracker.js: unshift the new play onto the play
history, then truncate (JS `array.length = max`) when the history exceeds
numberOfPlayedSongsToStore. -/
def onAdvance (e : AdvanceEvent) (cfg : BotConfig) (s : RoomState) : RoomState :=
  let newHistory := advancePlay e :: s.playHistory
  let newHistory :=
    if newHistory.length > cfg.numberOfPlayedSongsToStore then
      newHistory.take cfg.numberOfPlayedSongsToStore
    else newHistory
  { s with playHistory := newHistory }

/-- onChat from state_tracker.js: build the stored chat object (its
`wasUserMuted` copies the event's absent `isMuted` property), unshift it onto
the chat history, and truncate when the history exceeds
numberOfChatEventsToStore. `now` stands for the `Date.now()` call. -/
def onChat (e : TranslatedChatEvent) (now : Int) (cfg : BotConfig) (s : RoomState) : RoomState :=
  let chatObj : ChatMessage :=
    { chatID := e.chatID
      message := e.message
      timestamp := now
      type := e.type
      userID := e.userID
      username := e.username
      wasUserMuted := e.isMuted }
  let newHistory := chatObj :: s.chatHistory
  let newHistory :=
    if newHistory.length > cfg.numberOfChatEventsToStore then
      newHistory.take cfg.numberOfChatEventsToStore
    else newHistory
  { s with chatHistory := newHistory }

/-- The in-place mutation onChatDelete performs on a matched message: set
`isDeleted`, record `event.modUserID` (an absent property on the translated
delete event, hence an `Option`) and the deletion time. -/
def markDeleted (modUserID : Option String) (now : Int) (m : ChatMessage) : ChatMessage :=
  { m with isDeleted := true, deletedByUserID := modUserID, deletionTime := some now }

/-- The second loop of onChatDelete: walk the part of the chat history after
the matched index, marking messages while they have the same author as the
matched message and are not yet deleted, and stop (leaving the rest of the
list untouched) at the first message that fails either test. Returns the
updated list and the newly marked messages in scan order. -/
def cascadeDelete (uid : String) (modUserID : Option String) (now : Int) :
    List ChatMessage → List ChatMessage × List ChatMessage
  | [] => ([], [])
  | m :: rest =>
      if m.userID = uid ∧ ¬ m.isDeleted then
        let m' := markDeleted modUserID now m
        let r := cascadeDelete uid modUserID now rest
        (m' :: r.1, m' :: r.2)
      else
        (m :: rest, [])

/-- Both loops of onChatDelete over the chat history: the first loop scans for
the message whose chatID matches the event and marks it; the second loop then
cascades from the following index. When no message matches, the history is
unchanged and no messages are reported deleted. -/
def onChatDeleteHistory (e : TranslatedChatDeleteEvent) (now : Int) :
    List ChatMessage → List ChatMessage × List ChatMessage
  | [] => ([], [])
  | m :: rest =>
      if m.chatID = e.chatID then
        let m' := markDeleted e.modUserID now m
        let r := cascadeDelete m'.userID e.modUserID now rest
        (m' :: r.1, m' :: r.2)
      else
        let r := onChatDeleteHistory e now rest
        (m :: r.1, r.2)

/-- onChatDelete from state_tracker.js: update the chat history and return the
list of newly deleted messages that the handler attaches to the event object
for downstream listeners. -/
def onChatDelete (e : TranslatedChatDeleteEvent) (now : Int) (s : RoomState) :
    RoomState × List ChatMessage :=
  let r := onChatDeleteHistory e now s.chatHistory
  ({ s with chatHistory := r.1 }, r.2)

/-- onGrab from state_tracker.js: read playHistory[0] and push the grabbing
user onto its grabs list unless already present. On an empty play history the
JS reads `.votes` of `undefined` and throws; that is the `none` result. -/
def onGrab (e : GrabEvent) (s : RoomState) : Option RoomState :=
  match s.playHistory with
  | [] => none
  | p :: rest =>
      let p' :=
        if e.userID ∈ p.votes.grabs then p
        else { p with votes := { p.votes with grabs := p.votes.grabs ++ [e.userID] } }
      some { s with playHistory := p' :: rest }

/-- JS `list.splice(list.indexOf(u), 1)`: remove the first occurrence of `u`
(the callers guard on `indexOf(u) >= 0` first). -/
def spliceRemoveFirst (userID : String) : List String → List String
  | [] => []
  | u :: rest => if u = userID then rest else u :: spliceRemoveFirst userID rest

/-- The body of onVote on the current play: remove the voter from both the
woots and mehs lists (each guarded by an indexOf check), then push the voter
onto woots when the vote is 1, or onto mehs when the vote is -1. -/
def onVotePlay (e : VoteEvent) (p : Play) : Play :=
  let woots :=
    if e.userID ∈ p.votes.woots then spliceRemoveFirst e.userID p.votes.woots
    else p.votes.woots
  let mehs :=
    if e.userID ∈ p.votes.mehs then spliceRemoveFirst e.userID p.votes.mehs
    else p.votes.mehs
  if e.vote = 1 then
    { p with votes := { p.votes with woots := woots ++ [e.userID], mehs := mehs } }
  else if e.vote = -1 then
    { p with votes := { p.votes with woots := woots, mehs := mehs ++ [e.userID] } }
  else
    { p with votes := { p.votes with woots := woots, mehs := mehs } }

/-- onVote from state_tracker.js: apply `onVotePlay` to playHistory[0]. On an
empty play history the JS dereference of `undefined` throws, the `none`
result. -/
def onVote (e : VoteEvent) (s : RoomState) : Option RoomState :=
  match s.playHistory with
  | [] => none
  | p :: rest => some { s with playHistory := onVotePlay e p :: rest }

/-- onRoomPlaylistQueueUpdate from state_tracker.js: assign the translated
queue to the (previously absent) waitList property wholesale. -/
def onRoomPlaylistQueueUpdate (queue : List QueueEntry) (s : RoomState) : RoomState :=
  { s with waitList := some queue }

/-- _findUserIndex from state_tracker.js: index of the first user with the
given userID (JS returns -1 when absent, modelled as `none`). -/
def findUserIndex (users : List User) (userID : String) : Option Nat :=
  users.findIdx? (fun u => u.userID = userID)

/-- _findUser from state_tracker.js: the user at the found index, or null. -/
def findUser (users : List User) (userID : String) : Option User :=
  match findUserIndex users userID with
  | some i => users.get? i
  | none => none

/-- _removeUser from state_tracker.js: splice out the found index, or do
nothing. -/
def removeUser (users : List User) (userID : String) : List User :=
  match findUserIndex users userID with
  | some i => users.eraseIdx i
  | none => users

/-- onUserJoin from state_tracker.js: ignore (with a logged warning) a join
for an already-present userID, otherwise push the translated user. -/
def onUserJoin (u : User) (s : RoomState) : RoomState :=
  match findUser s.usersInRoom u.userID with
  | some _ => s
  | none => { s with usersInRoom := s.usersInRoom ++ [u] }

/-- onUserLeave from state_tracker.js. -/
def onUserLeave (userID : String) (s : RoomState) : RoomState :=
  { s with usersInRoom := removeUser s.usersInRoom userID }

/-- The vote-seeding loop of populateUsers: for each raw user present in the
room, push their ID onto grabs when the grab flag is set, and onto woots or
mehs when their recorded vote is 1 or -1. -/
def seedVotes (users : List RawDubUser) : Votes :=
  users.foldl
    (fun v u =>
      let v := if u.grab then { v with grabs := v.grabs ++ [u.id] } else v
      if u.vote = 1 then { v with woots := v.woots ++ [u.id] }
      else if u.vote = -1 then { v with mehs := v.mehs ++ [u.id] }
      else v)
    { grabs := [], mehs := [], woots := [] }

/-- populateUsers from state_tracker.js: translate and store every present
user, and, when the room has both a current song and a current DJ, synthesize
the currently playing track as a play whose start date is back-computed from
the elapsed time and whose votes are seeded from the users' flags, unshifted
onto the play history. With no current song or no current DJ, the play
history is left as is. -/
def populateUsers (rawMedia : Option RawMedia) (rawDj : Option RawDubUser)
    (users : List RawDubUser) (elapsedSeconds : Int) (now : Int) (s : RoomState) : RoomState :=
  let currentSong := translateMediaObject rawMedia
  let currentDj := translateUserObject now rawDj
  let s := { s with usersInRoom := s.usersInRoom ++ users.map (translateUser now) }
  match currentSong, currentDj with
  | some media, some dj =>
      let startDate := now - elapsedSeconds * 1000
      let currentPlay : Play :=
        { media := media, startDate := startDate, user := dj, votes := seedVotes users }
      { s with playHistory := currentPlay :: s.playHistory }
  | _, _ => s

/-- The translated events the state tracker subscribes to, each paired with
the `Date.now()` reading where the handler takes one. -/
inductive TrackerEvent where
  | advance (e : AdvanceEvent)
  | chat (e : TranslatedChatEvent) (now : Int)
  | chatDelete (e : TranslatedChatDeleteEvent) (now : Int)
  | grab (e : GrabEvent)
  | queueUpdate (queue : List QueueEntry)
  | userJoin (u : User)
  | userLeave (userID : String)
  | vote (e : VoteEvent)

/-- One atomic state-tracker update: dispatch a translated event to its
handler. `none` records the TypeError raised by onGrab and onVote on an empty
play history; every other handler is total. -/
def applyEvent (cfg : BotConfig) (ev : TrackerEvent) (s : RoomState) : Option RoomState :=
  match ev with
  | .advance e => some (onAdvance e cfg s)
  | .chat e now => some (onChat e now cfg s)
  | .chatDelete e now => some (onChatDelete e now s).1
  | .grab e => onGrab e s
  | .queueUpdate q => some (onRoomPlaylistQueueUpdate q s)
  | .userJoin u => some (onUserJoin u s)
  | .userLeave uid => some (onUserLeave uid s)
  | .vote e => onVote e s

/-! ## Bot facade outbound actions (dubtrack.js) -/

/-- The observable callback activity of one outbound action: the completion
callback being invoked with true or false, or the TypeError of calling an
absent callback. -/
inductive CallbackEvent where
  | calledTrue
  | calledFalse
  | typeError
  deriving DecidableEq

/-- Bot.prototype.forceSkip: wrap the optional callback in a guarded closure
(`if (callback) callback(true)`), hand it to the transport, and invoke
`callback(false)` immediately when the transport refuses to queue the skip and
a callback was supplied. `wasQueued` is the transport's synchronous return
value and `completionFires` whether the queued action's completion arrives. -/
def forceSkip (callbackPresent wasQueued completionFires : Bool) : List CallbackEvent :=
  let syncPart := if !wasQueued && callbackPresent then [CallbackEvent.calledFalse] else []
  let asyncPart :=
    if wasQueued && completionFires then
      if callbackPresent then [CallbackEvent.calledTrue] else []
    else []
  syncPart ++ asyncPart

/-- Bot.prototype.grabSong: same guarded pattern as forceSkip. -/
def grabSong (callbackPresent wasQueued completionFires : Bool) : List CallbackEvent :=
  let syncPart := if !wasQueued && callbackPresent then [CallbackEvent.calledFalse] else []
  let asyncPart :=
    if wasQueued && completionFires then
      if callbackPresent then [CallbackEvent.calledTrue] else []
    else []
  syncPart ++ asyncPart

/-- Bot.prototype.joinWaitList: same guarded pattern as forceSkip. -/
def joinWaitList (callbackPresent wasQueued completionFires : Bool) : List CallbackEvent :=
  let syncPart := if !wasQueued && callbackPresent then [CallbackEvent.calledFalse] else []
  let asyncPart :=
    if wasQueued && completionFires then
      if callbackPresent then [CallbackEvent.calledTrue] else []
    else []
  syncPart ++ asyncPart

/-- Bot.prototype.leaveWaitList: same guarded pattern as forceSkip. -/
def leaveWaitList (callbackPresent wasQueued completionFires : Bool) : List CallbackEvent :=
  let syncPart := if !wasQueued && callbackPresent then [CallbackEvent.calledFalse] else []
  let asyncPart :=
    if wasQueued && completionFires then
      if callbackPresent then [CallbackEvent.calledTrue] else []
    else []
  syncPart ++ asyncPart

/-- Bot.prototype.mehSong: same guarded pattern as forceSkip. -/
def mehSong (callbackPresent wasQueued completionFires : Bool) : List CallbackEvent :=
  let syncPart := if !wasQueued && callbackPresent then [CallbackEvent.calledFalse] else []
  let asyncPart :=
    if wasQueued && completionFires then
      if callbackPresent then [CallbackEvent.calledTrue] else []
    else []
  syncPart ++ asyncPart

/-- Bot.prototype.wootSong: same guarded pattern as forceSkip. -/
def wootSong (callbackPresent wasQueued completionFires : Bool) : List CallbackEvent :=
  let syncPart := if !wasQueued && callbackPresent then [CallbackEvent.calledFalse] else []
  let asyncPart :=
    if wasQueued && completionFires then
      if callbackPresent then [CallbackEvent.calledTrue] else []
    else []
  syncPart ++ asyncPart

/-- Bot.prototype.moveDjInWaitList: unlike every other action, the completion
closure handed to the transport is `function() { callback(true); }` WITHOUT an
`if (callback)` guard, so when the move was queued without a callback and
completes, the closure calls undefined and throws a TypeError. The
synchronous failure path is guarded like the others. -/
def moveDjInWaitList (userID : String) (newPosition : Nat)
    (callbackPresent wasQueued completionFires : Bool) : List CallbackEvent :=
  let syncPart := if !wasQueued && callbackPresent then [CallbackEvent.calledFalse] else []
  let asyncPart :=
    if wasQueued && completionFires then
      if callbackPresent then [CallbackEvent.calledTrue] else [CallbackEvent.typeError]
    else []
  syncPart ++ asyncPart

/-! ## Command dispatch (index.js, _createCommandHandler) -/

/-- A registered command module as the dispatch loop sees it: its trigger
strings, its optional minimumRole, and whether an
insufficientPermissionsHandler was exported. -/
structure Command where
  triggers : List String
  minimumRole : Option Role
  hasInsufficientPermissionsHandler : Bool
  deriving DecidableEq

/-- The fields of a chat event that the command dispatch loop reads: the
(possibly absent) command token and the invoking user's role. -/
structure ChatCommandView where
  command : Option String
  userRole : Role
  deriving DecidableEq

/-- An invocation performed by the dispatch loop, identified by the index of
the command in the registration list. -/
inductive DispatchAction where
  | handlerCall (i : Nat)
  | insufficientPermissionsCall (i : Nat)
  deriving DecidableEq

/-- JS `message.toLowerCase()` restricted to the character-wise lowering that
command tokens use. -/
def jsToLowerCase (s : String) : String :=
  String.mk (s.data.map Char.toLower)

/-- The command name the loop compares against triggers: lowercased unless
commands are configured case-sensitive. -/
def effectiveCommandName (cfg : BotConfig) (token : String) : String :=
  if cfg.areCommandsCaseSensitive then token else jsToLowerCase token

/-- JS `command.triggers.indexOf(commandName) >= 0`. -/
def commandMatches (effName : String) (c : Command) : Bool :=
  decide (effName ∈ c.triggers)

/-- The body of one iteration of the dispatch loop over the command at index
`i`: no action without a trigger match; with a match and a declared
minimumRole above the user's level, the insufficient-permissions hook fires
when present (and the handler does not); otherwise the handler fires. -/
def runCommand (effName : String) (userRole : Role) (i : Nat) (c : Command) : List DispatchAction :=
  if commandMatches effName c then
    match c.minimumRole with
    | some r =>
        if userRole.level < r.level then
          if c.hasInsufficientPermissionsHandler then
            [DispatchAction.insufficientPermissionsCall i]
          else []
        else [DispatchAction.handlerCall i]
    | none => [DispatchAction.handlerCall i]
  else []

/-- The dispatch loop from index `k` onward: every registered command is
visited in registration order regardless of what earlier commands did. -/
def dispatchFrom (effName : String) (userRole : Role) : Nat → List Command → List DispatchAction
  | _, [] => []
  | i, c :: cs => runCommand effName userRole i c ++ dispatchFrom effName userRole (i + 1) cs

/-- _createCommandHandler from index.js, as the sequence of handler
invocations one chat event produces: a falsy command token (absent or empty)
dispatches nothing; otherwise the token is case-normalized per the
configuration and run against every registered command. -/
def createCommandHandler (commands : List Command) (cfg : BotConfig)
    (ev : ChatCommandView) : List DispatchAction :=
  match ev.command with
  | none => []
  | some token =>
      if token = "" then []
      else dispatchFrom (effectiveCommandName cfg token) ev.userRole 0 commands

/-! ## Concrete fixtures used by evaluation and witness theorems -/

/-- A concrete media value. -/
def mediaEx : Media := { contentID := "m1", durationInSeconds := 180, fullTitle := "A - B" }

/-- A second concrete media value. -/
def mediaEx2 : Media := { contentID := "m2", durationInSeconds := 200, fullTitle := "C - D" }

/-- A concrete user value. -/
def userEx : User :=
  { dubs := 0, joinDate := 100, numberOfSongsPlayed := 3, role := some roleNone
    userID := "u1", username := "alice" }

/-- A second concrete user value. -/
def userEx2 : User :=
  { dubs := 5, joinDate := 200, numberOfSongsPlayed := 1, role := some roleDj
    userID := "u2", username := "bob" }

/-- A concrete configuration: case-insensitive commands, chat history capped
at 10, play history capped at 2. -/
def cfgEx : BotConfig :=
  { areCommandsCaseSensitive := false
    numberOfChatEventsToStore := 10
    numberOfPlayedSongsToStore := 2 }

/-- A translated chat event by the given author with the given chatID. -/
def chatEvEx (chatID userID : String) : TranslatedChatEvent :=
  { chatID := chatID, message := "hi", type := ChatType.message
    userID := userID, username := userID, userRole := some roleNone }

/-- How far an event shifts the position of a pre-existing play in the play
history: an Advance unshifts one new play in front, everything else leaves
positions unchanged. -/
def advanceShift : TrackerEvent → Nat
  | .advance _ => 1
  | _ => 0

/-- A sequence of vote events applied in order to one play by onVote's body. -/
def applyVotes (es : List VoteEvent) (p : Play) : Play :=
  es.foldl (fun p e => onVotePlay e p) p

/-- The vote of the most recent (last) event in `es` cast by user `u`, if
any: the specification-side notion of a user's most recent vote. -/
def lastVoteOf (u : String) : List VoteEvent → Option Int
  | [] => none
  | e :: rest =>
      match lastVoteOf u rest with
      | some v => some v
      | none => if e.userID = u then some e.vote else none

/-- A concrete play whose grabs list already contains u1. -/
def playEx : Play :=
  { media := mediaEx, startDate := 1, user := userEx
    votes := { grabs := ["u1"], mehs := [], woots := [] } }

/-- A concrete room state whose current play is `playEx`. -/
def sEx : RoomState := { initialRoomState with playHistory := [playEx] }

/-- The state `sEx` after u2 woots: what onVote produces on it. -/
def sExAfterWoot : RoomState :=
  { initialRoomState with
      playHistory :=
        [{ media := mediaEx, startDate := 1, user := userEx
           votes := { grabs := ["u1"], mehs := [], woots := ["u2"] } }] }

/-- A concrete command requiring the mod role, with an
insufficient-permissions hook registered. -/
def cmdModEx : Command :=
  { triggers := ["skip"], minimumRole := some roleMod
    hasInsufficientPermissionsHandler := true }

/-- A concrete command whose registered trigger contains an uppercase
letter. -/
def cmdUpperEx : Command :=
  { triggers := ["Skip"], minimumRole := none
    hasInsufficientPermissionsHandler := false }

/-! ## Theorems -/

/-- C1 evaluation. Chat history built by onChat from messages M1(userA),
M2(userA), M3(userB), M4(userA) sent in that chronological order is stored
most-recent-first as c4, c3, c2, c1. A chat-delete event naming M1's chatID
marks ONLY M1: the cascade loop of onChatDelete walks toward higher indices,
which are chronologically OLDER messages, and M1 is the oldest, so M2 stays
undeleted — contradicting the claimed forward (newer-message) cascade and the
handler's own comment that dubtrack deletes the named message and all
subsequent same-author messages. -/
theorem onChatDelete_no_forward_cascade_eval :
    ((onChatDelete { chatID := "c1", deleterID := "mod1", deleterUsername := "mod" } 5
        (onChat (chatEvEx "c4" "userA") 4 cfgEx
          (onChat (chatEvEx "c3" "userB") 3 cfgEx
            (onChat (chatEvEx "c2" "userA") 2 cfgEx
              (onChat (chatEvEx "c1" "userA") 1 cfgEx initialRoomState))))).1.chatHistory.map
      (fun m => (m.chatID, m.isDeleted)))
      = [("c4", false), ("c3", false), ("c2", false), ("c1", true)] := by
  decide

/-- C2 evaluation. The translated chat-delete event carries the deleting
moderator's ID as `deleterID` ("mod1" here), but onChatDelete records
`event.modUserID`, a property the translator never sets: the marked message's
deletedByUserID ends up undefined (`none`), not the moderator's ID, while the
deletion timestamp is recorded. -/
theorem onChatDelete_modUserID_undefined_eval :
    (translateChatDeleteEvent { id := "c1", user := { id := "mod1", username := "mod" } }).deleterID
        = "mod1" ∧
    ((onChatDelete
        (translateChatDeleteEvent { id := "c1", user := { id := "mod1", username := "mod" } }) 5
        (onChat (chatEvEx "c1" "userA") 1 cfgEx initialRoomState)).1.chatHistory.map
      (fun m => (m.isDeleted, m.deletedByUserID, m.deletionTime)))
      = [(true, none, some 5)] := by
  decide

/-- A raw chat event with the given message, a present user, and the
recognized "chat-message" variant tag. -/
def rawChatEvEx (id message : String) : RawChatEvent :=
  { id := id, message := message, type := "chat-message"
    user := some { id := "u1", username := "alice", role := "r" }
    raw_user := { _id := "u1", username := "alice", roleid := "r" } }

/-- C5 evaluation. First conjunct pair: "/me dances" is classified EMOTE, but
the translated object's message field still reads "/me dances" — the object
literal in translateChatEvent captures `event.message` before translateChatType
strips the first four characters, so the prefix is NOT removed from the
delivered message. Next: "ab /me cd" has no "/me " prefix yet is classified
EMOTE, because the JS test `/\/me /` is unanchored and matches the substring
anywhere — contradicting "every other message is typed MESSAGE". The final
conjuncts check the claim's COMMAND and MESSAGE examples, which do hold. -/
theorem translateChatEvent_emote_eval :
    ((translateChatEvent (rawChatEvEx "c1" "/me dances")).type = ChatType.emote ∧
      (translateChatEvent (rawChatEvEx "c1" "/me dances")).message = "/me dances") ∧
    (translateChatEvent (rawChatEvEx "c2" "ab /me cd")).type = ChatType.emote ∧
    ((translateChatEvent (rawChatEvEx "c3" "!woot a b")).type = ChatType.command ∧
      (translateChatEvent (rawChatEvEx "c3" "!woot a b")).command = some "woot" ∧
      (translateChatEvent (rawChatEvEx "c3" "!woot a b")).args = some ["a", "b"]) ∧
    (translateChatEvent (rawChatEvEx "c4" "plain text")).type = ChatType.message := by
  decide

/-- C8 evaluation. For moveDjInWaitList, omitting the callback is NOT safe:
when the move request is queued and completes, the unguarded completion
closure calls the absent callback and throws a TypeError (first conjunct) —
while with a callback present it is called with true, and the synchronous
enqueue-failure path correctly calls the callback with false when present and
stays silent when absent. The remaining conjuncts show every other action
(forceSkip, grabSong, wootSong, mehSong, joinWaitList, leaveWaitList) guards
its completion closure, so omitting the callback produces no events, and a
synchronous enqueue failure is reported as a false callback, never thrown. -/
theorem moveDj_missing_callback_eval :
    moveDjInWaitList "u1" 2 false true true = [CallbackEvent.typeError] ∧
    moveDjInWaitList "u1" 2 true true true = [CallbackEvent.calledTrue] ∧
    moveDjInWaitList "u1" 2 true false false = [CallbackEvent.calledFalse] ∧
    moveDjInWaitList "u1" 2 false false false = [] ∧
    forceSkip false true true = [] ∧
    forceSkip true false false = [CallbackEvent.calledFalse] ∧
    forceSkip false false false = [] ∧
    grabSong false true true = [] ∧
    grabSong true false false = [CallbackEvent.calledFalse] ∧
    wootSong false true true = [] ∧
    wootSong true false false = [CallbackEvent.calledFalse] ∧
    mehSong false true true = [] ∧
    mehSong true false false = [CallbackEvent.calledFalse] ∧
    joinWaitList false true true = [] ∧
    joinWaitList true false false = [CallbackEvent.calledFalse] ∧
    leaveWaitList false true true = [] ∧
    leaveWaitList true false false = [CallbackEvent.calledFalse] := by
  decide

/-- The truncation step of onAdvance is exactly a `take`: when the unshifted
history is within the cap, `take` is the identity. -/
theorem onAdvance_playHistory (e : AdvanceEvent) (cfg : BotConfig) (s : RoomState) :
    (onAdvance e cfg s).playHistory
      = (advancePlay e :: s.playHistory).take cfg.numberOfPlayedSongsToStore := by
  unfold onAdvance
  dsimp only
  split
  · rfl
  · exact (List.take_of_length_le (by omega)).symm

/-- Taking `n` of a list whose tail part was already truncated at `k ≥ n` is
the same as taking `n` of the untruncated list. -/
theorem take_append_of_take {α : Type} (l m : List α) (k : Nat) :
    ∀ n, n ≤ k → (l ++ m.take k).take n = (l ++ m).take n := by
  induction l with
  | nil =>
      intro n hn
      simp [List.take_take, Nat.min_eq_left hn]
  | cons a l ih =>
      intro n hn
      cases n with
      | zero => simp
      | succ n =>
          simp only [List.cons_append, List.take_succ_cons]
          rw [ih n (by omega)]

/-- Folding onAdvance over a non-empty event sequence leaves the play history
equal to the new plays (most recent first) in front of the old history,
truncated at the configured cap. -/
theorem foldl_onAdvance_playHistory (cfg : BotConfig) :
    ∀ (es : List AdvanceEvent) (s : RoomState), es ≠ [] →
    (es.foldl (fun st e => onAdvance e cfg st) s).playHistory
      = ((es.map advancePlay).reverse ++ s.playHistory).take cfg.numberOfPlayedSongsToStore := by
  intro es
  induction es with
  | nil => intro s h; exact absurd rfl h
  | cons e rest ih =>
      intro s _
      by_cases hr : rest = []
      · subst hr
        simpa using onAdvance_playHistory e cfg s
      · simp only [List.foldl_cons]
        rw [ih (onAdvance e cfg s) hr, onAdvance_playHistory,
          take_append_of_take _ _ _ _ (le_refl _)]
        congr 1
        simp [List.append_assoc]

/-- C4: for every non-empty sequence of Advance events applied to the room
snapshot, the resulting play history never exceeds
numberOfPlayedSongsToStore, and it equals the new plays in strict
most-recent-first order pushed in front of the prior history and truncated at
the cap. Since the starting state is arbitrary, this covers the state after
each event of any longer sequence. -/
theorem onAdvance_history_bounded_mrf (cfg : BotConfig) (s : RoomState)
    (es : List AdvanceEvent) (hne : es ≠ []) :
    (es.foldl (fun st e => onAdvance e cfg st) s).playHistory.length
        ≤ cfg.numberOfPlayedSongsToStore ∧
    (es.foldl (fun st e => onAdvance e cfg st) s).playHistory
      = ((es.map advancePlay).reverse ++ s.playHistory).take cfg.numberOfPlayedSongsToStore := by
  have h := foldl_onAdvance_playHistory cfg es s hne
  exact ⟨by rw [h]; exact List.length_take_le _ _, h⟩

/-- C4 witness: three Advance events against a cap of 2 leave exactly the two
most recent plays, most recent first. -/
theorem onAdvance_history_bounded_mrf_witness :
    ([⟨userEx, mediaEx, 1⟩, ⟨userEx2, mediaEx2, 2⟩, ⟨userEx, mediaEx, 3⟩] : List AdvanceEvent)
        ≠ [] ∧
    ((([⟨userEx, mediaEx, 1⟩, ⟨userEx2, mediaEx2, 2⟩, ⟨userEx, mediaEx, 3⟩] :
          List AdvanceEvent).foldl (fun st e => onAdvance e cfgEx st)
        initialRoomState).playHistory.length ≤ cfgEx.numberOfPlayedSongsToStore ∧
      (([⟨userEx, mediaEx, 1⟩, ⟨userEx2, mediaEx2, 2⟩, ⟨userEx, mediaEx, 3⟩] :
          List AdvanceEvent).foldl (fun st e => onAdvance e cfgEx st)
        initialRoomState).playHistory
        = ((([⟨userEx, mediaEx, 1⟩, ⟨userEx2, mediaEx2, 2⟩, ⟨userEx, mediaEx, 3⟩] :
              List AdvanceEvent).map advancePlay).reverse
            ++ initialRoomState.playHistory).take cfgEx.numberOfPlayedSongsToStore) :=
  ⟨by decide,
   onAdvance_history_bounded_mrf cfgEx initialRoomState
     [⟨userEx, mediaEx, 1⟩, ⟨userEx2, mediaEx2, 2⟩, ⟨userEx, mediaEx, 3⟩] (by decide)⟩

/-- C10: onGrab and onVote are total only when the play history is non-empty.
On an empty history both dereference the undefined current play and raise a
TypeError (the `none` result) instead of updating or ignoring the event; and
an empty play history is reachable, since populateUsers synthesizes no play
when the room has no current media or no current DJ at initialization. -/
theorem grab_vote_empty_history_none (cfg : BotConfig) (s : RoomState)
    (h : s.playHistory = []) (ge : GrabEvent) (ve : VoteEvent) :
    applyEvent cfg (TrackerEvent.grab ge) s = none ∧
    applyEvent cfg (TrackerEvent.vote ve) s = none ∧
    (∀ (rawDj : Option RawDubUser) (users : List RawDubUser) (elapsed now : Int),
      (populateUsers none rawDj users elapsed now initialRoomState).playHistory = []) ∧
    (∀ (rawMedia : Option RawMedia) (users : List RawDubUser) (elapsed now : Int),
      (populateUsers rawMedia none users elapsed now initialRoomState).playHistory = []) := by
  refine ⟨?_, ?_, ?_, ?_⟩
  · simp [applyEvent, onGrab, h]
  · simp [applyEvent, onVote, h]
  · intro rawDj users elapsed now
    cases rawDj <;>
      simp [populateUsers, translateMediaObject, translateUserObject, initialRoomState]
  · intro rawMedia users elapsed now
    cases rawMedia <;>
      simp [populateUsers, translateMediaObject, translateUserObject, initialRoomState]

/-- C10 witness: on the freshly-initialized (empty) room snapshot, a grab and
a vote event each produce the error result. -/
theorem grab_vote_empty_history_none_witness :
    initialRoomState.playHistory = [] ∧
    (applyEvent cfgEx (TrackerEvent.grab ⟨"u1"⟩) initialRoomState = none ∧
     applyEvent cfgEx (TrackerEvent.vote ⟨"u1", 1⟩) initialRoomState = none ∧
     (∀ (rawDj : Option RawDubUser) (users : List RawDubUser) (elapsed now : Int),
       (populateUsers none rawDj users elapsed now initialRoomState).playHistory = []) ∧
     (∀ (rawMedia : Option RawMedia) (users : List RawDubUser) (elapsed now : Int),
       (populateUsers rawMedia none users elapsed now initialRoomState).playHistory = [])) :=
  ⟨by decide, grab_vote_empty_history_none cfgEx initialRoomState (by decide) ⟨"u1"⟩ ⟨"u1", 1⟩⟩

/-- An element found at a position of a truncated list is at the same
position of the untruncated list. -/
theorem get_take_some {α : Type} :
    ∀ (n : Nat) (l : List α) (i : Nat) (x : α),
      (l.take n).get? i = some x → l.get? i = some x := by
  intro n
  induction n with
  | zero => intro l i x h; simp at h
  | succ n ih =>
      intro l i x h
      cases l with
      | nil => simp at h
      | cons a l =>
          cases i with
          | zero => simpa using h
          | succ i => simpa using ih l i x (by simpa using h)

/-- onVotePlay never touches the grabs list of the play it updates. -/
theorem onVotePlay_grabs (e : VoteEvent) (p : Play) :
    (onVotePlay e p).votes.grabs = p.votes.grabs := by
  unfold onVotePlay
  dsimp only
  split
  · rfl
  · split <;> rfl

/-- C9: grab is idempotent and monotone. First conjunct: a Grab event whose
user is already in the current play's grabs list leaves the whole room state
literally unchanged (same list, same size, same elements). Second conjunct:
for every tracker event, every play that survives the event (at its possibly
shifted position: an Advance shifts positions by one) keeps all members of
its grabs list — no event ever removes a userID from a play's grabs. -/
theorem grab_idempotent_monotone (cfg : BotConfig) :
    (∀ (e : GrabEvent) (s : RoomState) (p : Play) (rest : List Play),
        s.playHistory = p :: rest → e.userID ∈ p.votes.grabs →
        applyEvent cfg (TrackerEvent.grab e) s = some s) ∧
    (∀ (ev : TrackerEvent) (s s' : RoomState), applyEvent cfg ev s = some s' →
        ∀ (i : Nat) (p p' : Play), s.playHistory.get? i = some p →
          s'.playHistory.get? (i + advanceShift ev) = some p' →
          p.votes.grabs ⊆ p'.votes.grabs) := by
  constructor
  · intro e s p rest hs hmem
    have hrec : { s with playHistory := p :: rest } = s := by rw [← hs]
    simp [applyEvent, onGrab, hs, hmem, hrec]
  · intro ev s s' h i p p' hp hp'
    cases ev with
    | advance e =>
        simp only [applyEvent, Option.some.injEq] at h
        subst h
        simp only [advanceShift] at hp'
        rw [onAdvance_playHistory] at hp'
        have h2 := get_take_some _ _ _ _ hp'
        rw [List.get?_cons_succ] at h2
        rw [hp] at h2
        cases h2
        exact fun x hx => hx
    | chat e now =>
        simp only [applyEvent, Option.some.injEq] at h
        subst h
        simp only [advanceShift, Nat.add_zero, onChat] at hp'
        rw [hp] at hp'
        cases hp'
        exact fun x hx => hx
    | chatDelete e now =>
        simp only [applyEvent, Option.some.injEq] at h
        subst h
        simp only [advanceShift, Nat.add_zero, onChatDelete] at hp'
        rw [hp] at hp'
        cases hp'
        exact fun x hx => hx
    | grab e =>
        simp only [applyEvent] at h
        cases hph : s.playHistory with
        | nil => rw [onGrab, hph] at h; cases h
        | cons p0 rest =>
            rw [onGrab, hph] at h
            simp only [Option.some.injEq] at h
            subst h
            simp only [advanceShift, Nat.add_zero] at hp'
            rw [hph] at hp
            cases i with
            | zero =>
                rw [List.get?_cons_zero] at hp hp'
                cases hp
                simp only [Option.some.injEq] at hp'
                subst hp'
                split
                · exact fun x hx => hx
                · exact List.subset_append_left _ _
            | succ i =>
                rw [List.get?_cons_succ] at hp hp'
                rw [hp] at hp'
                cases hp'
                exact fun x hx => hx
    | queueUpdate q =>
        simp only [applyEvent, Option.some.injEq] at h
        subst h
        simp only [advanceShift, Nat.add_zero, onRoomPlaylistQueueUpdate] at hp'
        rw [hp] at hp'
        cases hp'
        exact fun x hx => hx
    | userJoin u =>
        simp only [applyEvent, Option.some.injEq] at h
        subst h
        have hpl : (onUserJoin u s).playHistory = s.playHistory := by
          unfold onUserJoin
          split <;> rfl
        simp only [advanceShift, Nat.add_zero, hpl] at hp'
        rw [hp] at hp'
        cases hp'
        exact fun x hx => hx
    | userLeave uid =>
        simp only [applyEvent, Option.some.injEq] at h
        subst h
        simp only [advanceShift, Nat.add_zero, onUserLeave] at hp'
        rw [hp] at hp'
        cases hp'
        exact fun x hx => hx
    | vote e =>
        simp only [applyEvent] at h
        cases hph : s.playHistory with
        | nil => rw [onVote, hph] at h; cases h
        | cons p0 rest =>
            rw [onVote, hph] at h
            simp only [Option.some.injEq] at h
            subst h
            simp only [advanceShift, Nat.add_zero] at hp'
            rw [hph] at hp
            cases i with
            | zero =>
                rw [List.get?_cons_zero] at hp hp'
                cases hp
                simp only [Option.some.injEq] at hp'
                subst hp'
                rw [onVotePlay_grabs]
                exact fun x hx => hx
            | succ i =>
                rw [List.get?_cons_succ] at hp hp'
                rw [hp] at hp'
                cases hp'
                exact fun x hx => hx

/-- C9 witness: a repeat grab by u1 leaves the state literally unchanged, and
a woot by u2 keeps u1 in the current play's grabs list. -/
theorem grab_idempotent_monotone_witness :
    ("u1" ∈ playEx.votes.grabs ∧
      applyEvent cfgEx (TrackerEvent.grab ⟨"u1"⟩) sEx = some sEx) ∧
    (applyEvent cfgEx (TrackerEvent.vote ⟨"u2", 1⟩) sEx = some sExAfterWoot ∧
      playEx.votes.grabs ⊆
        ({ media := mediaEx, startDate := 1, user := userEx
           votes := { grabs := ["u1"], mehs := [], woots := ["u2"] } } : Play).votes.grabs) :=
  ⟨⟨by decide, (grab_idempotent_monotone cfgEx).1 ⟨"u1"⟩ sEx playEx [] rfl (by decide)⟩,
   ⟨by decide,
    (grab_idempotent_monotone cfgEx).2 (TrackerEvent.vote ⟨"u2", 1⟩) sEx sExAfterWoot
      (by decide) 0 playEx _ (by decide) (by decide)⟩⟩

/-- Membership of a different element is unaffected by removing the first
occurrence of `b`. -/
theorem mem_spliceRemoveFirst_of_ne (a b : String) :
    ∀ l : List String, a ≠ b → (a ∈ spliceRemoveFirst b l ↔ a ∈ l) := by
  intro l hne
  induction l with
  | nil => simp [spliceRemoveFirst]
  | cons u rest ih =>
      by_cases hu : u = b
      · subst hu
        simp [spliceRemoveFirst, hne]
      · simp [spliceRemoveFirst, hu, ih]

/-- On a duplicate-free list, removing the first occurrence of `b` removes
every occurrence. -/
theorem not_mem_spliceRemoveFirst_self (b : String) :
    ∀ l : List String, l.Nodup → b ∉ spliceRemoveFirst b l := by
  intro l
  induction l with
  | nil => intro _; simp [spliceRemoveFirst]
  | cons u rest ih =>
      intro hnd
      by_cases hu : u = b
      · subst hu
        simpa [spliceRemoveFirst] using (List.nodup_cons.mp hnd).1
      · intro hmem
        simp only [spliceRemoveFirst, if_neg hu, List.mem_cons] at hmem
        rcases hmem with hmem | hmem
        · exact hu hmem.symm
        · exact ih (List.nodup_cons.mp hnd).2 hmem

/-- Removing the first occurrence preserves freedom from duplicates. -/
theorem nodup_spliceRemoveFirst (b : String) :
    ∀ l : List String, l.Nodup → (spliceRemoveFirst b l).Nodup := by
  intro l
  induction l with
  | nil => intro _; simp [spliceRemoveFirst]
  | cons u rest ih =>
      intro hnd
      obtain ⟨hu, hrest⟩ := List.nodup_cons.mp hnd
      by_cases hub : u = b
      · subst hub
        simpa [spliceRemoveFirst] using hrest
      · simp only [spliceRemoveFirst, if_neg hub]
        refine List.nodup_cons.mpr ⟨?_, ih hrest⟩
        intro hmem
        exact hu ((mem_spliceRemoveFirst_of_ne u b rest (fun h => hub h)).mp hmem)

/-- The guarded removal performed by onVotePlay (indexOf check then splice)
never leaves `b` in a duplicate-free list. -/
theorem not_mem_guardedSplice (b : String) (l : List String) (h : l.Nodup) :
    b ∉ (if b ∈ l then spliceRemoveFirst b l else l) := by
  split
  · exact not_mem_spliceRemoveFirst_self b l h
  · assumption

/-- The guarded removal preserves freedom from duplicates. -/
theorem nodup_guardedSplice (b : String) (l : List String) (h : l.Nodup) :
    (if b ∈ l then spliceRemoveFirst b l else l).Nodup := by
  split
  · exact nodup_spliceRemoveFirst b l h
  · exact h

/-- The guarded removal does not change membership of other elements. -/
theorem mem_guardedSplice_of_ne (a b : String) (l : List String) (hne : a ≠ b) :
    a ∈ (if b ∈ l then spliceRemoveFirst b l else l) ↔ a ∈ l := by
  split
  · exact mem_spliceRemoveFirst_of_ne a b l hne
  · exact Iff.rfl

/-- onVotePlay keeps the woots and mehs lists duplicate-free. -/
theorem onVotePlay_nodup (e : VoteEvent) (p : Play)
    (hw : p.votes.woots.Nodup) (hm : p.votes.mehs.Nodup) :
    (onVotePlay e p).votes.woots.Nodup ∧ (onVotePlay e p).votes.mehs.Nodup := by
  have hw' := nodup_guardedSplice e.userID p.votes.woots hw
  have hm' := nodup_guardedSplice e.userID p.votes.mehs hm
  have hwmem := not_mem_guardedSplice e.userID p.votes.woots hw
  have hmmem := not_mem_guardedSplice e.userID p.votes.mehs hm
  simp only [onVotePlay]
  split
  · constructor
    · simp [List.nodup_append, hw']
      intro a
      exact hwmem a
    · exact hm'
  · split
    · constructor
      · exact hw'
      · simp [List.nodup_append, hm']
        intro a
        exact hmmem a
    · exact ⟨hw', hm'⟩

/-- After onVotePlay, the voter is in the list matching the event's vote and
out of the other list (for duplicate-free vote lists). -/
theorem onVotePlay_self_vote (e : VoteEvent) (p : Play)
    (hw : p.votes.woots.Nodup) (hm : p.votes.mehs.Nodup) :
    (e.vote = 1 →
      e.userID ∈ (onVotePlay e p).votes.woots ∧ e.userID ∉ (onVotePlay e p).votes.mehs) ∧
    (e.vote = -1 →
      e.userID ∈ (onVotePlay e p).votes.mehs ∧ e.userID ∉ (onVotePlay e p).votes.woots) := by
  have hwmem := not_mem_guardedSplice e.userID p.votes.woots hw
  have hmmem := not_mem_guardedSplice e.userID p.votes.mehs hm
  constructor
  · intro h1
    simp only [onVotePlay, h1, if_true, reduceIte]
    exact ⟨by simp, hmmem⟩
  · intro h2
    have h1 : ¬ (e.vote = 1) := by rw [h2]; decide
    simp only [onVotePlay, h2, h1, if_false, reduceIte]
    exact ⟨by simp, hwmem⟩

/-- onVotePlay does not change the woots or mehs membership of any user other
than the voter. -/
theorem onVotePlay_other_user (e : VoteEvent) (p : Play) (u : String)
    (hne : e.userID ≠ u) :
    ((u ∈ (onVotePlay e p).votes.woots ↔ u ∈ p.votes.woots) ∧
     (u ∈ (onVotePlay e p).votes.mehs ↔ u ∈ p.votes.mehs)) := by
  have hw := mem_guardedSplice_of_ne u e.userID p.votes.woots (fun h => hne h.symm)
  have hm := mem_guardedSplice_of_ne u e.userID p.votes.mehs (fun h => hne h.symm)
  simp only [onVotePlay]
  split
  · constructor
    · rw [List.mem_append]
      simp only [List.mem_singleton]
      constructor
      · intro h
        rcases h with h | h
        · exact hw.mp h
        · exact absurd h.symm hne
      · intro h
        exact Or.inl (hw.mpr h)
    · exact hm
  · split
    · constructor
      · exact hw
      · rw [List.mem_append]
        simp only [List.mem_singleton]
        constructor
        · intro h
          rcases h with h | h
          · exact hm.mp h
          · exact absurd h.symm hne
        · intro h
          exact Or.inl (hm.mpr h)
    · exact ⟨hw, hm⟩

/-- A sequence of vote events by other users does not change a user's woots
or mehs membership. -/
theorem applyVotes_untouched (u : String) :
    ∀ (es : List VoteEvent) (p : Play), (∀ e ∈ es, e.userID ≠ u) →
    ((u ∈ (applyVotes es p).votes.woots ↔ u ∈ p.votes.woots) ∧
     (u ∈ (applyVotes es p).votes.mehs ↔ u ∈ p.votes.mehs)) := by
  intro es
  induction es with
  | nil => intro p _; exact ⟨Iff.rfl, Iff.rfl⟩
  | cons e rest ih =>
      intro p h
      have h1 := onVotePlay_other_user e p u (h e (by simp))
      have h2 := ih (onVotePlay e p) (fun e' he' => h e' (by simp [he']))
      exact ⟨h2.1.trans h1.1, h2.2.trans h1.2⟩

/-- A user with no events in the sequence has no last vote there. -/
theorem lastVoteOf_eq_none (u : String) :
    ∀ es : List VoteEvent, lastVoteOf u es = none → ∀ e ∈ es, e.userID ≠ u := by
  intro es
  induction es with
  | nil => intro _ e he; cases he
  | cons e rest ih =>
      intro h
      simp only [lastVoteOf] at h
      cases hrest : lastVoteOf u rest with
      | some w => rw [hrest] at h; cases h
      | none =>
          rw [hrest] at h
          intro e' he'
          rcases List.mem_cons.mp he' with he' | he'
          · subst he'
            intro heq
            rw [if_pos heq] at h
            cases h
          · exact ih hrest e' he'

/-- A recorded last vote comes from an actual event of that user in the
sequence. -/
theorem lastVoteOf_vote_mem (u : String) :
    ∀ (es : List VoteEvent) (v : Int), lastVoteOf u es = some v →
      ∃ e ∈ es, e.userID = u ∧ e.vote = v := by
  intro es
  induction es with
  | nil => intro v h; cases h
  | cons e rest ih =>
      intro v h
      simp only [lastVoteOf] at h
      cases hrest : lastVoteOf u rest with
      | some w =>
          rw [hrest] at h
          cases h
          obtain ⟨e', he', hu, hv⟩ := ih _ hrest
          exact ⟨e', List.mem_cons_of_mem e he', hu, hv⟩
      | none =>
          rw [hrest] at h
          by_cases heq : e.userID = u
          · rw [if_pos heq] at h
            cases h
            exact ⟨e, List.mem_cons_self e rest, heq, rfl⟩
          · rw [if_neg heq] at h
            cases h

/-- The inductive core of last-vote-wins: after applying a vote sequence to a
play whose vote lists are duplicate-free, each user who voted is in the list
matching their most recent vote and out of the other. -/
theorem applyVotes_lastVote (u : String) :
    ∀ (es : List VoteEvent) (p : Play), p.votes.woots.Nodup → p.votes.mehs.Nodup →
    ∀ v : Int, lastVoteOf u es = some v →
    ((v = 1 → u ∈ (applyVotes es p).votes.woots ∧ u ∉ (applyVotes es p).votes.mehs) ∧
     (v = -1 → u ∈ (applyVotes es p).votes.mehs ∧ u ∉ (applyVotes es p).votes.woots)) := by
  intro es
  induction es with
  | nil => intro p _ _ v hv; cases hv
  | cons e rest ih =>
      intro p hw hm v hv
      obtain ⟨hw', hm'⟩ := onVotePlay_nodup e p hw hm
      simp only [lastVoteOf] at hv
      cases hrest : lastVoteOf u rest with
      | some w =>
          rw [hrest] at hv
          cases hv
          exact ih (onVotePlay e p) hw' hm' _ hrest
      | none =>
          rw [hrest] at hv
          by_cases heq : e.userID = u
          · rw [if_pos heq] at hv
            injection hv with hv2
            have hnone := lastVoteOf_eq_none u rest hrest
            have hself := onVotePlay_self_vote e p hw hm
            have huntouched := applyVotes_untouched u rest (onVotePlay e p) hnone
            constructor
            · intro h1
              have hin := hself.1 (by rw [hv2, h1])
              rw [heq] at hin
              exact ⟨huntouched.1.mpr hin.1, fun hmm => hin.2 (huntouched.2.mp hmm)⟩
            · intro h2
              have hin := hself.2 (by rw [hv2, h2])
              rw [heq] at hin
              exact ⟨huntouched.2.mpr hin.1, fun hmm => hin.2 (huntouched.1.mp hmm)⟩
          · rw [if_neg heq] at hv
            cases hv

/-- C3: for every sequence of Vote events applied to the current play (each
carrying the translator-produced vote of 1 or -1) and every user with at
least one event in the sequence, the user ends up in the vote list matching
their most recent vote, not in the other, and hence in exactly one of the two
lists. The duplicate-freeness hypotheses hold for every play the tracker
creates (onAdvance starts both lists empty), and are preserved by onVotePlay,
so quantifying over all starting plays also covers the state after each
intermediate event of a longer sequence. -/
theorem onVote_last_vote_single_set (es : List VoteEvent) (p : Play)
    (hw : p.votes.woots.Nodup) (hm : p.votes.mehs.Nodup)
    (hvotes : ∀ e ∈ es, e.vote = 1 ∨ e.vote = -1)
    (u : String) (v : Int) (hlast : lastVoteOf u es = some v) :
    (v = 1 → u ∈ (applyVotes es p).votes.woots ∧ u ∉ (applyVotes es p).votes.mehs) ∧
    (v = -1 → u ∈ (applyVotes es p).votes.mehs ∧ u ∉ (applyVotes es p).votes.woots) ∧
    ((u ∈ (applyVotes es p).votes.woots ∧ u ∉ (applyVotes es p).votes.mehs) ∨
     (u ∈ (applyVotes es p).votes.mehs ∧ u ∉ (applyVotes es p).votes.woots)) := by
  have hmain := applyVotes_lastVote u es p hw hm v hlast
  refine ⟨hmain.1, hmain.2, ?_⟩
  obtain ⟨e, he, hu, hv⟩ := lastVoteOf_vote_mem u es v hlast
  rcases hvotes e he with h1 | h2
  · exact Or.inl (hmain.1 (by rw [← hv, h1]))
  · exact Or.inr (hmain.2 (by rw [← hv, h2]))

/-- C3 witness: u1 woots then mehs on a fresh play; the final state has u1 in
mehs only, matching the most recent vote. -/
theorem onVote_last_vote_single_set_witness :
    (advancePlay ⟨userEx, mediaEx, 1⟩).votes.woots.Nodup ∧
    (advancePlay ⟨userEx, mediaEx, 1⟩).votes.mehs.Nodup ∧
    (∀ e ∈ ([⟨"u1", 1⟩, ⟨"u1", -1⟩] : List VoteEvent), e.vote = 1 ∨ e.vote = -1) ∧
    lastVoteOf "u1" [⟨"u1", 1⟩, ⟨"u1", -1⟩] = some (-1) ∧
    (((-1 : Int) = 1 →
        "u1" ∈ (applyVotes [⟨"u1", 1⟩, ⟨"u1", -1⟩] (advancePlay ⟨userEx, mediaEx, 1⟩)).votes.woots ∧
        "u1" ∉ (applyVotes [⟨"u1", 1⟩, ⟨"u1", -1⟩] (advancePlay ⟨userEx, mediaEx, 1⟩)).votes.mehs) ∧
      ((-1 : Int) = -1 →
        "u1" ∈ (applyVotes [⟨"u1", 1⟩, ⟨"u1", -1⟩] (advancePlay ⟨userEx, mediaEx, 1⟩)).votes.mehs ∧
        "u1" ∉ (applyVotes [⟨"u1", 1⟩, ⟨"u1", -1⟩] (advancePlay ⟨userEx, mediaEx, 1⟩)).votes.woots) ∧
      (("u1" ∈ (applyVotes [⟨"u1", 1⟩, ⟨"u1", -1⟩] (advancePlay ⟨userEx, mediaEx, 1⟩)).votes.woots ∧
        "u1" ∉ (applyVotes [⟨"u1", 1⟩, ⟨"u1", -1⟩] (advancePlay ⟨userEx, mediaEx, 1⟩)).votes.mehs) ∨
       ("u1" ∈ (applyVotes [⟨"u1", 1⟩, ⟨"u1", -1⟩] (advancePlay ⟨userEx, mediaEx, 1⟩)).votes.mehs ∧
        "u1" ∉ (applyVotes [⟨"u1", 1⟩, ⟨"u1", -1⟩] (advancePlay ⟨userEx, mediaEx, 1⟩)).votes.woots))) :=
  ⟨by decide, by decide, by decide, by decide,
   onVote_last_vote_single_set [⟨"u1", 1⟩, ⟨"u1", -1⟩] (advancePlay ⟨userEx, mediaEx, 1⟩)
     (by decide) (by decide) (by decide) "u1" (-1) (by decide)⟩

/-- Every invocation emitted while visiting the command at index `n` carries
index `n`. -/
theorem runCommand_mem_shape (effName : String) (role : Role) (n : Nat) (c : Command)
    (a : DispatchAction) (h : a ∈ runCommand effName role n c) :
    a = DispatchAction.handlerCall n ∨ a = DispatchAction.insufficientPermissionsCall n := by
  unfold runCommand at h
  split at h
  · split at h
    · split at h
      · split at h
        · exact Or.inr (by simpa using h)
        · simp at h
      · exact Or.inl (by simpa using h)
    · exact Or.inl (by simpa using h)
  · simp at h

/-- Membership in the dispatch loop's output decomposes into membership in
one visited command's output. -/
theorem mem_dispatchFrom (effName : String) (role : Role) (a : DispatchAction) :
    ∀ (cs : List Command) (k : Nat),
      (a ∈ dispatchFrom effName role k cs ↔
        ∃ j c, cs.get? j = some c ∧ a ∈ runCommand effName role (k + j) c) := by
  intro cs
  induction cs with
  | nil => intro k; simp [dispatchFrom]
  | cons c cs ih =>
      intro k
      simp only [dispatchFrom, List.mem_append, ih (k + 1)]
      constructor
      · rintro (h | ⟨j, c', hj, h⟩)
        · exact ⟨0, c, by simp, by simpa using h⟩
        · refine ⟨j + 1, c', by simpa using hj, ?_⟩
          have harith : k + 1 + j = k + (j + 1) := by omega
          rw [harith] at h
          exact h
      · rintro ⟨j, c', hj, h⟩
        cases j with
        | zero =>
            left
            rw [List.get?_cons_zero] at hj
            cases hj
            simpa using h
        | succ j =>
            right
            refine ⟨j, c', by simpa using hj, ?_⟩
            have harith : k + (j + 1) = k + 1 + j := by omega
            rw [harith] at h
            exact h

/-- For an invocation whose index points at the command stored at that index,
membership in the whole dispatch output is membership in that command's
output. -/
theorem mem_dispatch_zero_iff (effName : String) (role : Role) (commands : List Command)
    (i : Nat) (ci : Command) (hci : commands.get? i = some ci) (a : DispatchAction)
    (hidx : a = DispatchAction.handlerCall i ∨ a = DispatchAction.insufficientPermissionsCall i) :
    (a ∈ dispatchFrom effName role 0 commands ↔ a ∈ runCommand effName role i ci) := by
  rw [mem_dispatchFrom]
  constructor
  · rintro ⟨j, c', hj, ha⟩
    have hshape := runCommand_mem_shape effName role (0 + j) c' a ha
    have hij : i = j := by
      rcases hidx with h1 | h1 <;> rcases hshape with h2 | h2 <;>
        { rw [h1] at h2; first | (injection h2 with h3; omega) | cases h2 }
    subst hij
    rw [hci] at hj
    cases hj
    rw [Nat.zero_add] at ha
    exact ha
  · intro ha
    exact ⟨i, ci, hci, by rw [Nat.zero_add]; exact ha⟩

/-- C6: the role gate of the command dispatch loop. For every registered
command matched by the incoming token that declares a minimumRole: a user
below that role triggers the insufficient-permissions hook exactly when one is
registered and never the handler; a user at or above it triggers the handler
and never the hook. The statement holds for every index `i` simultaneously
and `createCommandHandler` visits every registered command, so matching
continues through the remaining commands regardless of each gate's outcome. -/
theorem commandDispatch_role_gate (cfg : BotConfig) (ev : ChatCommandView)
    (commands : List Command) (token : String) (hcmd : ev.command = some token)
    (htok : token ≠ "") (i : Nat) (ci : Command) (hci : commands.get? i = some ci)
    (hmatch : commandMatches (effectiveCommandName cfg token) ci = true)
    (r : Role) (hrole : ci.minimumRole = some r) :
    (ev.userRole.level < r.level →
      ((DispatchAction.insufficientPermissionsCall i ∈ createCommandHandler commands cfg ev ↔
          ci.hasInsufficientPermissionsHandler = true) ∧
        DispatchAction.handlerCall i ∉ createCommandHandler commands cfg ev)) ∧
    (r.level ≤ ev.userRole.level →
      (DispatchAction.handlerCall i ∈ createCommandHandler commands cfg ev ∧
        DispatchAction.insufficientPermissionsCall i ∉ createCommandHandler commands cfg ev)) := by
  have hch : createCommandHandler commands cfg ev
      = dispatchFrom (effectiveCommandName cfg token) ev.userRole 0 commands := by
    unfold createCommandHandler
    rw [hcmd]
    dsimp only
    rw [if_neg htok]
  constructor
  · intro hlt
    have hrun : runCommand (effectiveCommandName cfg token) ev.userRole i ci
        = if ci.hasInsufficientPermissionsHandler then
            [DispatchAction.insufficientPermissionsCall i]
          else [] := by
      unfold runCommand
      rw [hmatch, hrole]
      simp only [if_true]
      rw [if_pos hlt]
    constructor
    · rw [hch, mem_dispatch_zero_iff (effectiveCommandName cfg token) ev.userRole commands i ci
        hci _ (Or.inr rfl), hrun]
      by_cases hh : ci.hasInsufficientPermissionsHandler <;> simp [hh]
    · rw [hch, mem_dispatch_zero_iff (effectiveCommandName cfg token) ev.userRole commands i ci
        hci _ (Or.inl rfl), hrun]
      by_cases hh : ci.hasInsufficientPermissionsHandler <;> simp [hh]
  · intro hge
    have hrun : runCommand (effectiveCommandName cfg token) ev.userRole i ci
        = [DispatchAction.handlerCall i] := by
      unfold runCommand
      rw [hmatch, hrole]
      simp only [if_true]
      rw [if_neg (by omega)]
    constructor
    · rw [hch, mem_dispatch_zero_iff (effectiveCommandName cfg token) ev.userRole commands i ci
        hci _ (Or.inl rfl), hrun]
      simp
    · rw [hch, mem_dispatch_zero_iff (effectiveCommandName cfg token) ev.userRole commands i ci
        hci _ (Or.inr rfl), hrun]
      simp

/-- C6 witness: a command with triggers ["skip"], minimumRole mod, and a
registered insufficient-permissions hook, invoked via token "SKIP" by a
role-none user (below) — the hook fires and the handler does not; the
at-or-above implication is also instantiated. -/
theorem commandDispatch_role_gate_witness :
    (⟨some "SKIP", roleNone⟩ : ChatCommandView).command = some "SKIP" ∧
    "SKIP" ≠ "" ∧
    ([cmdModEx].get? 0 = some cmdModEx) ∧
    commandMatches (effectiveCommandName cfgEx "SKIP") cmdModEx = true ∧
    cmdModEx.minimumRole = some roleMod ∧
    ((⟨some "SKIP", roleNone⟩ : ChatCommandView).userRole.level < roleMod.level →
      ((DispatchAction.insufficientPermissionsCall 0 ∈
          createCommandHandler [cmdModEx] cfgEx ⟨some "SKIP", roleNone⟩ ↔
          cmdModEx.hasInsufficientPermissionsHandler = true) ∧
        DispatchAction.handlerCall 0 ∉
          createCommandHandler [cmdModEx] cfgEx ⟨some "SKIP", roleNone⟩)) ∧
    (roleMod.level ≤ (⟨some "SKIP", roleNone⟩ : ChatCommandView).userRole.level →
      (DispatchAction.handlerCall 0 ∈
          createCommandHandler [cmdModEx] cfgEx ⟨some "SKIP", roleNone⟩ ∧
        DispatchAction.insufficientPermissionsCall 0 ∉
          createCommandHandler [cmdModEx] cfgEx ⟨some "SKIP", roleNone⟩)) :=
  ⟨rfl, by decide, by decide, by decide, by decide,
   (commandDispatch_role_gate cfgEx ⟨some "SKIP", roleNone⟩ [cmdModEx] "SKIP" rfl (by decide) 0
      cmdModEx (by decide) (by decide) roleMod (by decide)).1,
   (commandDispatch_role_gate cfgEx ⟨some "SKIP", roleNone⟩ [cmdModEx] "SKIP" rfl (by decide) 0
      cmdModEx (by decide) (by decide) roleMod (by decide)).2⟩

/-- C7 counterexample: with case-insensitive configuration, the registered
trigger "Skip" and the incoming token "Skip" are equal (so certainly equal
ignoring case), yet the command is not treated as a match and its handler
never fires, because only the token is lowercased before the verbatim
comparison against the trigger set. -/
theorem commandMatches_uppercase_trigger_cex :
    "Skip" ∈ cmdUpperEx.triggers ∧
    commandMatches (effectiveCommandName cfgEx "Skip") cmdUpperEx = false ∧
    createCommandHandler [cmdUpperEx] cfgEx ⟨some "Skip", roleOwner⟩ = [] := by
  decide

/-- C7 amended: when commands are not case-sensitive, the incoming token is
lowercased and then compared verbatim with the trigger strings — a command is
treated as a match exactly when its trigger set contains the lowercased
token. In particular any token equal to an all-lowercase trigger ignoring
letter case does match; triggers containing an uppercase letter are never
matched. -/
theorem commandMatches_lowercase_token_amended (cfg : BotConfig)
    (hcase : cfg.areCommandsCaseSensitive = false) (token : String) (c : Command) :
    (commandMatches (effectiveCommandName cfg token) c = true ↔
      jsToLowerCase token ∈ c.triggers) ∧
    (∀ t ∈ c.triggers, jsToLowerCase t = t → jsToLowerCase token = jsToLowerCase t →
      commandMatches (effectiveCommandName cfg token) c = true) := by
  have heff : effectiveCommandName cfg token = jsToLowerCase token := by
    unfold effectiveCommandName
    rw [hcase]
    rfl
  constructor
  · rw [heff]
    unfold commandMatches
    exact decide_eq_true_iff
  · intro t ht hlow heq
    rw [heff]
    unfold commandMatches
    rw [decide_eq_true_iff]
    rw [heq, hlow]
    exact ht

/-- C7 amended witness: token "SKIP" against the all-lowercase trigger
"skip" under the case-insensitive configuration. -/
theorem commandMatches_lowercase_token_amended_witness :
    cfgEx.areCommandsCaseSensitive = false ∧
    ((commandMatches (effectiveCommandName cfgEx "SKIP") cmdModEx = true ↔
        jsToLowerCase "SKIP" ∈ cmdModEx.triggers) ∧
      (∀ t ∈ cmdModEx.triggers, jsToLowerCase t = t →
        jsToLowerCase "SKIP" = jsToLowerCase t →
        commandMatches (effectiveCommandName cfgEx "SKIP") cmdModEx = true)) :=
  ⟨rfl, commandMatches_lowercase_token_amended cfgEx rfl "SKIP" cmdModEx⟩
